import Mathlib

/-!
Shallow embedding of the player-physics integration layer of the Arena
repository.

The repository contains three revisions of the physics module:
* `src/src/physics.js` — modelled in namespace `Physics`;
* `src/unnamed/part_002` (camera-rotation-aware revision) — namespace `Physics2`;
* `src/unnamed/part_003` (debug-visualization revision) — namespace `Physics3`.
It also contains the input handler `src/src/input.js` and the tick loop of
`src/src/main.js`, modelled in namespace `Input`.

Numbers are modelled by `ℚ` in the physics-state model (all repository-owned
arithmetic there is +, -, *, comparisons) and by `ℝ` where the claims are
about Euclidean norms or the constant π.  External library functions
(`Math.cos`, `Math.sin`, `Math.sqrt`, `Math.atan2`) are passed as function
parameters; the external Rapier engine (`world.castRay`, `world.step`) is
abstracted as function fields of `World`, and `body.applyImpulse` by its
documented contract (velocity change = impulse × inverse mass).

Each call to `updatePhysics` additionally returns a trace of the externally
visible engine operations it performs, in order, so that the temporal claims
(movement before step, rotation before movement, debug sync after step) can
be stated about the order of events within one call.
-/

/-- A horizontal direction/vector with `x` and `z` components, as used for
movement input throughout the repository. -/
structure Vec2 (α : Type) where
  x : α
  z : α
  deriving DecidableEq

/-- A 3D vector over the rationals (positions, velocities, impulses). -/
structure Vec3 where
  x : ℚ
  y : ℚ
  z : ℚ
  deriving DecidableEq

/-- A quaternion (rigid-body rotation, read back by `updateDebugMesh`). -/
structure Quat where
  x : ℚ
  y : ℚ
  z : ℚ
  w : ℚ
  deriving DecidableEq

/-- A camera/player rotation: `x` is pitch (vertical), `y` is yaw
(horizontal), as produced by `InputHandler.getPlayerRotation`. -/
structure CameraRot (α : Type) where
  x : α
  y : α
  deriving DecidableEq

/-- A Rapier rigid body as observed by the repository: its translation,
linear velocity, rotation and inverse mass. -/
structure Body where
  translation : Vec3
  linvel : Vec3
  rotation : Quat
  invMass : ℚ
  deriving DecidableEq

/-- A ray-cast hit, carrying its time of impact (`hit.toi`). -/
structure Hit where
  toi : ℚ
  deriving DecidableEq

/-- A ray, as built by `new RAPIER.Ray(rayOrigin, rayDirection)`. -/
structure Ray where
  origin : Vec3
  dir : Vec3
  deriving DecidableEq

/-- Abstraction of the external Rapier `World`.  `castRayFn` models
`world.castRay(ray, maxToi, solid)`; `stepFn` models the effect of
`world.step()` on one body, given the list of all bodies in the world
(so body interactions are not restricted).  Both are arbitrary: the
repository does not implement them. -/
structure World where
  castRayFn : Ray → ℚ → Bool → Option Hit
  stepFn : List Body → Body → Body

/-- The `type` tag stored in `physicsObjects` entries. -/
inductive ObjType where
  | player
  | ground
  deriving DecidableEq

/-- Externally visible engine operations performed during one call to
`updatePhysics`, in order. -/
inductive PEvent where
  | setLinvel (v : Vec3)
  | applyImpulseEv (v : Vec3)
  | stepEv
  | syncMesh
  | rotateDir (d : Vec2 ℚ)
  | playerRot (y : ℚ)
  | updateDebugEv (t : ObjType)
  deriving DecidableEq

/-- `const MOVE_SPEED = 2.0` (same value in all three revisions). -/
def MOVE_SPEED : ℚ := 2.0

/-- `const JUMP_FORCE = 5.0` (same value in all three revisions). -/
def JUMP_FORCE : ℚ := 5.0

/-- `const GROUND_DETECTION_DISTANCE = 0.1` (same value in all three
revisions). -/
def GROUND_DETECTION_DISTANCE : ℚ := 0.1

/-- Rapier's documented contract for `body.applyImpulse(imp, true)`:
the linear velocity changes by the impulse times the inverse mass. -/
def Body.applyImpulse (b : Body) (imp : Vec3) : Body :=
  { b with
      linvel := ⟨b.linvel.x + imp.x * b.invMass, b.linvel.y + imp.y * b.invMass,
                 b.linvel.z + imp.z * b.invMass⟩ }

/-- `movePlayer(playerBody, direction, deltaTime)` of `physics.js` lines
169–187 (identical in all three revisions): early-returns on a missing body,
otherwise sets the linear velocity to the scaled horizontal direction while
preserving the vertical component.  Returns the updated body together with
the engine operations performed. -/
def movePlayer (playerBody : Option Body) (direction : Vec2 ℚ) (deltaTime : ℚ) :
    Option Body × List PEvent :=
  match playerBody with
  | none => (none, [])
  | some b =>
      let _moveDistance := MOVE_SPEED * deltaTime
      let velocity := b.linvel
      let v : Vec3 := ⟨direction.x * MOVE_SPEED, velocity.y, direction.z * MOVE_SPEED⟩
      (some { b with linvel := v }, [PEvent.setLinvel v])

/-- `playerJump(playerBody)` of `physics.js` lines 193–198 (identical in all
three revisions): applies an upward impulse `{x: 0, y: JUMP_FORCE, z: 0}`. -/
def playerJump (playerBody : Option Body) : Option Body × List PEvent :=
  match playerBody with
  | none => (none, [])
  | some b =>
      (some (b.applyImpulse ⟨0, JUMP_FORCE, 0⟩),
       [PEvent.applyImpulseEv ⟨0, JUMP_FORCE, 0⟩])

/-- `isPlayerOnGround(playerBody)` of `physics.js` lines 205–221 (identical
in all three revisions).  The module-level `world` is passed explicitly;
`!playerBody || !world` is modelled by the `Option` arguments. -/
def isPlayerOnGround (playerBody : Option Body) (world : Option World) : Bool :=
  match playerBody, world with
  | some b, some w =>
      let position := b.translation
      let rayOrigin : Vec3 := ⟨position.x, position.y, position.z⟩
      let rayDirection : Vec3 := ⟨0, -1, 0⟩
      let ray : Ray := ⟨rayOrigin, rayDirection⟩
      match w.castRayFn ray GROUND_DETECTION_DISTANCE true with
      | none => false
      | some hit => decide (hit.toi ≤ GROUND_DETECTION_DISTANCE)
  | _, _ => false

/-- `rotateDirectionWithCamera(direction, cameraRotation)` of
`src/unnamed/part_002` lines 185–194 and `src/unnamed/part_003` lines
313–322.  `Math.cos` and `Math.sin` are external and are passed as the
parameters `cosF` and `sinF`. -/
def rotateDirectionWithCamera {α : Type} [CommRing α] [DecidableEq α]
    (cosF sinF : α → α) (direction : Vec2 α) (cameraRotation : CameraRot α) :
    Vec2 α :=
  if direction.x = 0 ∧ direction.z = 0 then direction
  else
    let angle := cameraRotation.y
    ⟨direction.x * cosF angle - direction.z * sinF angle,
     direction.x * sinF angle + direction.z * cosF angle⟩

namespace Physics

/-- One entry of the module-level `physicsObjects` array of
`src/src/physics.js`: the visual mesh state (position and y-rotation), the
rigid body, and the `type` tag. -/
structure PhysObj where
  meshPos : Vec3
  meshRotY : ℚ
  body : Body
  type : ObjType

/-- The module-level mutable state of `src/src/physics.js`: the (possibly
uninitialized) world and the `physicsObjects` array. -/
structure PhysState where
  world : Option World
  physicsObjects : List PhysObj

/-- `getPlayerPhysics()` of `src/src/physics.js` lines 239–241: the first
entry whose type is `player`, or `null`. -/
def getPlayerPhysics (objs : List PhysObj) : Option PhysObj :=
  objs.find? (fun o => decide (o.type = ObjType.player))

/-- JS mutation of the object returned by `getPlayerPhysics` through its
reference: replace the first `player`-typed entry of the array. -/
def updateFirstPlayer (f : PhysObj → PhysObj) : List PhysObj → List PhysObj
  | [] => []
  | o :: rest =>
      if o.type = ObjType.player then f o :: rest
      else o :: updateFirstPlayer f rest

/-- Lines 128–138 of `src/src/physics.js`: if a player physics object
exists, run `movePlayer` on its body, then, if `jumpRequested` and
`isPlayerOnGround` hold, run `playerJump` on it. -/
def playerPhase (w : World) (objs : List PhysObj) (inputDirection : Vec2 ℚ)
    (jumpRequested : Bool) (deltaTime : ℚ) : List PhysObj × List PEvent :=
  match getPlayerPhysics objs with
  | none => (objs, [])
  | some pp =>
      let mres := movePlayer (some pp.body) inputDirection deltaTime
      let body1 := mres.1.getD pp.body
      let jres :=
        if jumpRequested && isPlayerOnGround (some body1) (some w) then
          ((playerJump (some body1)).1.getD body1, (playerJump (some body1)).2)
        else (body1, ([] : List PEvent))
      (updateFirstPlayer (fun o => { o with body := jres.1 }) objs,
       mres.2 ++ jres.2)

/-- `world.step()`: every body in the world is advanced by the engine's
abstract step function. -/
def stepObjs (w : World) (objs : List PhysObj) : List PhysObj :=
  objs.map (fun o => { o with body := w.stepFn (objs.map (fun o2 => o2.body)) o.body })

/-- Lines 144–160 of `src/src/physics.js` (one iteration of the sync loop):
a `player` object's mesh position is set from `obj.body.translation()`, and
its y-rotation from `Math.atan2` of the input when the input is nonzero. -/
def syncPlayerObj (atan2F : ℚ → ℚ → ℚ) (inputDirection : Vec2 ℚ) (o : PhysObj) :
    PhysObj :=
  if o.type = ObjType.player then
    { o with
        meshPos := o.body.translation,
        meshRotY :=
          if inputDirection.x ≠ 0 ∨ inputDirection.z ≠ 0 then
            atan2F inputDirection.x inputDirection.z
          else o.meshRotY }
  else o

/-- The mesh-write operations performed by the sync loop, in order. -/
def syncEvents (objs : List PhysObj) : List PEvent :=
  (objs.map (fun o =>
    if o.type = ObjType.player then [PEvent.syncMesh] else [])).flatten

/-- `updatePhysics(deltaTime, inputDirection, jumpRequested)` of
`src/src/physics.js` lines 121–161.  `Math.atan2` is external and passed as
`atan2F`.  Returns the new module state and the ordered trace of engine
operations. -/
def updatePhysics (atan2F : ℚ → ℚ → ℚ) (st : PhysState) (deltaTime : ℚ)
    (inputDirection : Vec2 ℚ) (jumpRequested : Bool) : PhysState × List PEvent :=
  match st.world with
  | none => (st, [])
  | some w =>
      let pr := playerPhase w st.physicsObjects inputDirection jumpRequested deltaTime
      let objs2 := stepObjs w pr.1
      ({ st with physicsObjects := objs2.map (syncPlayerObj atan2F inputDirection) },
       pr.2 ++ PEvent.stepEv :: syncEvents objs2)

end Physics

namespace Physics2

/-- One entry of `physicsObjects` in `src/unnamed/part_002` (same shape as in
`src/src/physics.js`). -/
structure PhysObj where
  meshPos : Vec3
  meshRotY : ℚ
  body : Body
  type : ObjType

/-- Module-level state of `src/unnamed/part_002`. -/
structure PhysState where
  world : Option World
  physicsObjects : List PhysObj

/-- `getPlayerPhysics()` of `src/unnamed/part_002` lines 290–292. -/
def getPlayerPhysics (objs : List PhysObj) : Option PhysObj :=
  objs.find? (fun o => decide (o.type = ObjType.player))

/-- JS mutation of the first `player`-typed entry through its reference. -/
def updateFirstPlayer (f : PhysObj → PhysObj) : List PhysObj → List PhysObj
  | [] => []
  | o :: rest =>
      if o.type = ObjType.player then f o :: rest
      else o :: updateFirstPlayer f rest

/-- Lines 139–158 of `src/unnamed/part_002`: the raw input direction is
first rotated by the camera's horizontal rotation, the rotated direction is
applied as movement, then the jump check runs, then `updatePlayerRotation`
sets the player mesh's y-rotation to the camera yaw. -/
def playerPhase (cosF sinF : ℚ → ℚ) (w : World) (objs : List PhysObj)
    (inputDirection : Vec2 ℚ) (jumpRequested : Bool) (cameraRotation : CameraRot ℚ)
    (deltaTime : ℚ) : List PhysObj × List PEvent :=
  match getPlayerPhysics objs with
  | none => (objs, [])
  | some pp =>
      let rotatedDirection :=
        rotateDirectionWithCamera cosF sinF inputDirection cameraRotation
      let mres := movePlayer (some pp.body) rotatedDirection deltaTime
      let body1 := mres.1.getD pp.body
      let jres :=
        if jumpRequested && isPlayerOnGround (some body1) (some w) then
          ((playerJump (some body1)).1.getD body1, (playerJump (some body1)).2)
        else (body1, ([] : List PEvent))
      (updateFirstPlayer
         (fun o => { o with body := jres.1, meshRotY := cameraRotation.y }) objs,
       PEvent.rotateDir rotatedDirection ::
         (mres.2 ++ jres.2 ++ [PEvent.playerRot cameraRotation.y]))

/-- `world.step()` over all bodies. -/
def stepObjs (w : World) (objs : List PhysObj) : List PhysObj :=
  objs.map (fun o => { o with body := w.stepFn (objs.map (fun o2 => o2.body)) o.body })

/-- Lines 164–176 of `src/unnamed/part_002` (one iteration of the sync
loop): a `player` object's mesh position is set from the body translation. -/
def syncPlayerObj (o : PhysObj) : PhysObj :=
  if o.type = ObjType.player then { o with meshPos := o.body.translation } else o

/-- The mesh-write operations performed by the sync loop, in order. -/
def syncEvents (objs : List PhysObj) : List PEvent :=
  (objs.map (fun o =>
    if o.type = ObjType.player then [PEvent.syncMesh] else [])).flatten

/-- `updatePhysics(deltaTime, inputDirection, jumpRequested, cameraRotation)`
of `src/unnamed/part_002` lines 131–177.  `Math.cos`/`Math.sin` are external
and passed as `cosF`/`sinF`. -/
def updatePhysics (cosF sinF : ℚ → ℚ) (st : PhysState) (deltaTime : ℚ)
    (inputDirection : Vec2 ℚ) (jumpRequested : Bool)
    (cameraRotation : CameraRot ℚ) : PhysState × List PEvent :=
  match st.world with
  | none => (st, [])
  | some w =>
      let pr := playerPhase cosF sinF w st.physicsObjects inputDirection
        jumpRequested cameraRotation deltaTime
      let objs2 := stepObjs w pr.1
      ({ st with physicsObjects := objs2.map syncPlayerObj },
       pr.2 ++ PEvent.stepEv :: syncEvents objs2)

end Physics2

namespace Physics3

/-- The debug wireframe mesh state synchronized by `updateDebugMesh` in
`src/unnamed/part_003`: a position and a quaternion. -/
structure DebugMesh where
  pos : Vec3
  quat : Quat

/-- One entry of `physicsObjects` in `src/unnamed/part_003`.  The pair
`debugId`/`debugMeshes[debugId]` is modelled by the optional attached debug
mesh: `none` when no debug visualization exists for the object. -/
structure PhysObj where
  meshPos : Vec3
  meshRotY : ℚ
  body : Body
  type : ObjType
  debugMesh : Option DebugMesh

/-- Module-level state of `src/unnamed/part_003`. -/
structure PhysState where
  world : Option World
  physicsObjects : List PhysObj

/-- `updateDebugMesh(mesh, body)` of `src/unnamed/part_003` lines 114–130:
early-returns on a missing mesh, otherwise copies the body's translation and
rotation onto the mesh. -/
def updateDebugMesh (mesh : Option DebugMesh) (body : Body) : Option DebugMesh :=
  match mesh with
  | none => none
  | some _ => some ⟨body.translation, body.rotation⟩

/-- `getPlayerPhysics()` of `src/unnamed/part_003` lines 418–420. -/
def getPlayerPhysics (objs : List PhysObj) : Option PhysObj :=
  objs.find? (fun o => decide (o.type = ObjType.player))

/-- JS mutation of the first `player`-typed entry through its reference. -/
def updateFirstPlayer (f : PhysObj → PhysObj) : List PhysObj → List PhysObj
  | [] => []
  | o :: rest =>
      if o.type = ObjType.player then f o :: rest
      else o :: updateFirstPlayer f rest

/-- Lines 259–278 of `src/unnamed/part_003`: rotate the input by the camera
yaw, move, jump check, then set the player mesh's y-rotation to the camera
yaw. -/
def playerPhase (cosF sinF : ℚ → ℚ) (w : World) (objs : List PhysObj)
    (inputDirection : Vec2 ℚ) (jumpRequested : Bool) (cameraRotation : CameraRot ℚ)
    (deltaTime : ℚ) : List PhysObj × List PEvent :=
  match getPlayerPhysics objs with
  | none => (objs, [])
  | some pp =>
      let rotatedDirection :=
        rotateDirectionWithCamera cosF sinF inputDirection cameraRotation
      let mres := movePlayer (some pp.body) rotatedDirection deltaTime
      let body1 := mres.1.getD pp.body
      let jres :=
        if jumpRequested && isPlayerOnGround (some body1) (some w) then
          ((playerJump (some body1)).1.getD body1, (playerJump (some body1)).2)
        else (body1, ([] : List PEvent))
      (updateFirstPlayer
         (fun o => { o with body := jres.1, meshRotY := cameraRotation.y }) objs,
       PEvent.rotateDir rotatedDirection ::
         (mres.2 ++ jres.2 ++ [PEvent.playerRot cameraRotation.y]))

/-- `world.step()` over all bodies. -/
def stepObjs (w : World) (objs : List PhysObj) : List PhysObj :=
  objs.map (fun o => { o with body := w.stepFn (objs.map (fun o2 => o2.body)) o.body })

/-- Lines 284–304 of `src/unnamed/part_003` (one iteration of the sync
loop): a `player` object's mesh position is set from the body translation
and its debug mesh, when present, is synchronized; a `ground` object's debug
mesh, when present, is synchronized. -/
def syncObj (o : PhysObj) : PhysObj :=
  if o.type = ObjType.player then
    { o with
        meshPos := o.body.translation,
        debugMesh := updateDebugMesh o.debugMesh o.body }
  else if o.type = ObjType.ground ∧ o.debugMesh.isSome = true then
    { o with debugMesh := updateDebugMesh o.debugMesh o.body }
  else o

/-- The mesh-write operations performed by the sync loop, in order. -/
def syncEvents (objs : List PhysObj) : List PEvent :=
  (objs.map (fun o =>
    if o.type = ObjType.player then
      PEvent.syncMesh ::
        (if o.debugMesh.isSome = true then [PEvent.updateDebugEv o.type] else [])
    else if o.type = ObjType.ground ∧ o.debugMesh.isSome = true then
      [PEvent.updateDebugEv o.type]
    else [])).flatten

/-- `updatePhysics(deltaTime, inputDirection, jumpRequested, cameraRotation)`
of `src/unnamed/part_003` lines 251–305. -/
def updatePhysics (cosF sinF : ℚ → ℚ) (st : PhysState) (deltaTime : ℚ)
    (inputDirection : Vec2 ℚ) (jumpRequested : Bool)
    (cameraRotation : CameraRot ℚ) : PhysState × List PEvent :=
  match st.world with
  | none => (st, [])
  | some w =>
      let pr := playerPhase cosF sinF w st.physicsObjects inputDirection
        jumpRequested cameraRotation deltaTime
      let objs2 := stepObjs w pr.1
      ({ st with physicsObjects := objs2.map syncObj },
       pr.2 ++ PEvent.stepEv :: syncEvents objs2)

end Physics3

namespace Input

/-- The `keys` state of `InputHandler` (`src/src/input.js` lines 7–13). -/
structure Keys where
  forward : Bool
  backward : Bool
  left : Bool
  right : Bool
  jump : Bool

/-- `InputHandler.getMovementDirection()` (`src/src/input.js` lines
108–113). -/
def getMovementDirection {α : Type} [Ring α] (keys : Keys) : Vec2 α :=
  ⟨(if keys.right then 1 else 0) - (if keys.left then 1 else 0),
   (if keys.backward then 1 else 0) - (if keys.forward then 1 else 0)⟩

/-- The accumulated `mouseMovement` state of `InputHandler`. -/
structure MouseState (α : Type) where
  x : α
  y : α

/-- One `mousemove` DOM event as observed by `onMouseMove`: the relative
movement and whether `document.pointerLockElement` was set at that time. -/
structure MouseMoveEvent (α : Type) where
  movementX : α
  movementY : α
  pointerLocked : Bool

/-- `InputHandler.onMouseMove(event)` (`src/src/input.js` lines 89–102).
`Math.PI` is passed as `piV` and `this.sensitivity` as `sens`. -/
def onMouseMove {α : Type} [LinearOrderedField α] (piV sens : α)
    (st : MouseState α) (ev : MouseMoveEvent α) : MouseState α :=
  if ev.pointerLocked then
    { x := st.x + ev.movementX * sens,
      y := max (min (st.y + ev.movementY * sens) (piV / 2 - 1 / 10))
             (-(piV / 2) + 1 / 10) }
  else st

/-- A sequence of `mousemove` events processed in order, starting from a
given accumulated state (the constructor initializes it to `(0, 0)`). -/
def processMouseMoves {α : Type} [LinearOrderedField α] (piV sens : α)
    (init : MouseState α) (evs : List (MouseMoveEvent α)) : MouseState α :=
  evs.foldl (onMouseMove piV sens) init

/-- `InputHandler.getPlayerRotation()` (`src/src/input.js` lines 119–124). -/
def getPlayerRotation {α : Type} [Neg α] (m : MouseState α) : CameraRot α :=
  ⟨-m.y, m.x⟩

/-- The normalization of the movement direction performed by `tick` in
`src/src/main.js` lines 217–224, before the direction is passed to
`updatePhysics`.  `Math.sqrt` is external and passed as `sqrtF`. -/
def normalizeDirection {α : Type} [Field α] [DecidableEq α] (sqrtF : α → α)
    (d : Vec2 α) : Vec2 α :=
  if d.x ≠ 0 ∧ d.z ≠ 0 then
    let length := sqrtF (d.x * d.x + d.z * d.z)
    ⟨d.x / length, d.z / length⟩
  else d

end Input

/-- A concrete external engine for witnesses: the ray cast never hits and the
step leaves bodies unchanged. -/
def wWorld : World := ⟨fun _ _ _ => none, fun _ b => b⟩

/-- A concrete player body for witnesses. -/
def wBody : Body := ⟨⟨0, 2, 0⟩, ⟨0, 0, 0⟩, ⟨0, 0, 0, 1⟩, 1⟩

/-- A concrete player entry of `physicsObjects` for witnesses (first
revision). -/
def wPlayerObj : Physics.PhysObj := ⟨⟨0, 2, 0⟩, 0, wBody, ObjType.player⟩

/-- A concrete module state for witnesses (first revision). -/
def wState : Physics.PhysState := ⟨some wWorld, [wPlayerObj]⟩

/-- A concrete player entry for witnesses (camera-rotation revision). -/
def wPlayerObj2 : Physics2.PhysObj := ⟨⟨0, 2, 0⟩, 0, wBody, ObjType.player⟩

/-- A concrete module state for witnesses (camera-rotation revision). -/
def wState2 : Physics2.PhysState := ⟨some wWorld, [wPlayerObj2]⟩

/-- A concrete player entry with a debug mesh (debug revision). -/
def wPlayerObj3 : Physics3.PhysObj :=
  ⟨⟨0, 2, 0⟩, 0, wBody, ObjType.player, some ⟨⟨0, 2, 0⟩, ⟨0, 0, 0, 1⟩⟩⟩

/-- A concrete ground entry with a debug mesh (debug revision). -/
def wGroundObj3 : Physics3.PhysObj :=
  ⟨⟨0, 0, 0⟩, 0, wBody, ObjType.ground, some ⟨⟨0, 0, 0⟩, ⟨0, 0, 0, 1⟩⟩⟩

/-- A concrete module state for witnesses (debug revision). -/
def wState3 : Physics3.PhysState := ⟨some wWorld, [wPlayerObj3, wGroundObj3]⟩

/-- Setting the linear velocity does not change the translation, so the
ground check is unaffected. -/
theorem isPlayerOnGround_setLinvel (b : Body) (v : Vec3) (ow : Option World) :
    isPlayerOnGround (some { b with linvel := v }) ow = isPlayerOnGround (some b) ow := by
  cases ow <;> rfl

/-- C1: `isPlayerOnGround` returns true, for a live player body and an
initialized world, exactly when the ray cast straight down (direction
`(0, -1, 0)`) from the body's current translation reports a hit whose time
of impact is at most `GROUND_DETECTION_DISTANCE` (= 0.1); it returns false
whenever the body or the world is missing. -/
theorem isPlayerOnGround_iff_raycast_hit :
    (∀ (b : Body) (w : World),
        isPlayerOnGround (some b) (some w) = true
          ↔ ∃ hit, w.castRayFn ⟨b.translation, ⟨0, -1, 0⟩⟩
                GROUND_DETECTION_DISTANCE true = some hit
              ∧ hit.toi ≤ GROUND_DETECTION_DISTANCE)
    ∧ (∀ ow, isPlayerOnGround none ow = false)
    ∧ (∀ ob, isPlayerOnGround ob none = false)
    ∧ GROUND_DETECTION_DISTANCE = 1 / 10 := by
  refine ⟨?_, ?_, ?_, by norm_num [GROUND_DETECTION_DISTANCE]⟩
  · intro b w
    simp only [isPlayerOnGround]
    rcases hc : w.castRayFn ⟨b.translation, ⟨0, -1, 0⟩⟩ GROUND_DETECTION_DISTANCE true with
      _ | hit <;> simp [hc]
  · intro ow; cases ow <;> rfl
  · intro ob; cases ob <;> rfl

/-- C5: `movePlayer` with a live player body only rewrites the horizontal
velocity components, to `direction.x * MOVE_SPEED` and
`direction.z * MOVE_SPEED` with `MOVE_SPEED = 2`, and leaves the vertical
velocity component and every other body field exactly unchanged. -/
theorem movePlayer_sets_horizontal_preserves_vertical
    (b : Body) (d : Vec2 ℚ) (dt : ℚ) :
    ∃ b2, (movePlayer (some b) d dt).1 = some b2
      ∧ b2.linvel.x = d.x * MOVE_SPEED
      ∧ b2.linvel.z = d.z * MOVE_SPEED
      ∧ b2.linvel.y = b.linvel.y
      ∧ b2.translation = b.translation
      ∧ b2.rotation = b.rotation
      ∧ b2.invMass = b.invMass
      ∧ MOVE_SPEED = 2 :=
  ⟨_, rfl, rfl, rfl, rfl, rfl, rfl, rfl, by norm_num [MOVE_SPEED]⟩

/-- Every event emitted by the first revision's sync loop is a mesh-position
write. -/
theorem physics_syncEvents_eq_syncMesh (objs : List Physics.PhysObj) :
    ∀ e ∈ Physics.syncEvents objs, e = PEvent.syncMesh := by
  intro e he
  simp only [Physics.syncEvents, List.mem_flatten, List.mem_map] at he
  obtain ⟨l, ⟨o, ho, rfl⟩, hel⟩ := he
  split at hel
  · simpa using hel
  · simp at hel

/-- The ordered trace of the player phase of the first revision's
`updatePhysics` when a player physics object exists: one velocity write,
followed by the jump impulse exactly when the jump condition holds. -/
theorem physics_playerPhase_trace (w : World) (objs : List Physics.PhysObj)
    (dir : Vec2 ℚ) (j : Bool) (dt : ℚ) (pp : Physics.PhysObj)
    (h : Physics.getPlayerPhysics objs = some pp) :
    (Physics.playerPhase w objs dir j dt).2 =
      PEvent.setLinvel ⟨dir.x * MOVE_SPEED, pp.body.linvel.y, dir.z * MOVE_SPEED⟩ ::
        (if j && isPlayerOnGround (some pp.body) (some w) then
          [PEvent.applyImpulseEv ⟨0, JUMP_FORCE, 0⟩]
        else []) := by
  simp only [Physics.playerPhase, h, movePlayer, playerJump, Option.getD_some,
    isPlayerOnGround_setLinvel]
  split <;> rfl

/-- C2: in every call to the first revision's `updatePhysics` with an
initialized world and an existing player physics object, the velocity write
performed by `movePlayer` occurs strictly before the (unique) `world.step()`
event, and no velocity write occurs after the step. -/
theorem updatePhysics_move_before_step
    (atan2F : ℚ → ℚ → ℚ) (st : Physics.PhysState) (dt : ℚ) (dir : Vec2 ℚ)
    (j : Bool) (w : World) (pp : Physics.PhysObj)
    (h1 : st.world = some w)
    (h2 : Physics.getPlayerPhysics st.physicsObjects = some pp) :
    ∃ pre post,
      (Physics.updatePhysics atan2F st dt dir j).2 = pre ++ PEvent.stepEv :: post
        ∧ (∃ v, PEvent.setLinvel v ∈ pre)
        ∧ (∀ v, PEvent.setLinvel v ∉ post)
        ∧ PEvent.stepEv ∉ pre ∧ PEvent.stepEv ∉ post := by
  refine ⟨(Physics.playerPhase w st.physicsObjects dir j dt).2,
    Physics.syncEvents
      (Physics.stepObjs w (Physics.playerPhase w st.physicsObjects dir j dt).1),
    ?_, ?_, ?_, ?_, ?_⟩
  · simp only [Physics.updatePhysics, h1]
  · rw [physics_playerPhase_trace w st.physicsObjects dir j dt pp h2]
    exact ⟨_, List.mem_cons_self _ _⟩
  · intro v hv
    have := physics_syncEvents_eq_syncMesh _ _ hv
    simp at this
  · rw [physics_playerPhase_trace w st.physicsObjects dir j dt pp h2]
    split <;> simp
  · intro hv
    have := physics_syncEvents_eq_syncMesh _ _ hv
    simp at this

/-- C2 witness: a concrete state with a live world and player on which the
theorem's hypotheses hold. -/
theorem updatePhysics_move_before_step_witness :
    (wState.world = some wWorld
      ∧ Physics.getPlayerPhysics wState.physicsObjects = some wPlayerObj)
    ∧ (∃ pre post,
        (Physics.updatePhysics (fun _ _ => 0) wState 1 ⟨1, 0⟩ false).2
            = pre ++ PEvent.stepEv :: post
          ∧ (∃ v, PEvent.setLinvel v ∈ pre)
          ∧ (∀ v, PEvent.setLinvel v ∉ post)
          ∧ PEvent.stepEv ∉ pre ∧ PEvent.stepEv ∉ post) :=
  ⟨⟨rfl, rfl⟩,
   updatePhysics_move_before_step (fun _ _ => 0) wState 1 ⟨1, 0⟩ false wWorld
     wPlayerObj rfl rfl⟩

/-- C3: during a call to the first revision's `updatePhysics` with a player
present, the upward impulse `{x: 0, y: JUMP_FORCE, z: 0}` (with
`JUMP_FORCE = 5`) is applied exactly when `jumpRequested` holds and
`isPlayerOnGround` holds for the player body at that moment. -/
theorem updatePhysics_jump_iff
    (atan2F : ℚ → ℚ → ℚ) (st : Physics.PhysState) (dt : ℚ) (dir : Vec2 ℚ)
    (j : Bool) (w : World) (pp : Physics.PhysObj)
    (h1 : st.world = some w)
    (h2 : Physics.getPlayerPhysics st.physicsObjects = some pp) :
    ((PEvent.applyImpulseEv ⟨0, JUMP_FORCE, 0⟩
        ∈ (Physics.updatePhysics atan2F st dt dir j).2)
      ↔ (j = true ∧ isPlayerOnGround (some pp.body) (some w) = true))
    ∧ JUMP_FORCE = 5 := by
  refine ⟨?_, by norm_num [JUMP_FORCE]⟩
  simp only [Physics.updatePhysics, h1]
  rw [physics_playerPhase_trace w st.physicsObjects dir j dt pp h2]
  constructor
  · intro hmem
    simp only [List.mem_append, List.mem_cons] at hmem
    rcases hmem with (hmem | hmem) | (hmem | hmem)
    · simp at hmem
    · split at hmem
      · next hc => exact Bool.and_eq_true_iff.mp (by simpa using hc)
      · simp at hmem
    · simp at hmem
    · have := physics_syncEvents_eq_syncMesh _ _ hmem
      simp at this
  · intro hc
    have hcb : (j && isPlayerOnGround (some pp.body) (some w)) = true := by
      simp [hc.1, hc.2]
    simp [hcb]

/-- C3 witness: concrete state with a live world and player; the ray cast of
`wWorld` never hits, so no impulse event occurs and both iff sides are
false. -/
theorem updatePhysics_jump_iff_witness :
    (wState.world = some wWorld
      ∧ Physics.getPlayerPhysics wState.physicsObjects = some wPlayerObj)
    ∧ ((PEvent.applyImpulseEv ⟨0, JUMP_FORCE, 0⟩
          ∈ (Physics.updatePhysics (fun _ _ => 0) wState 1 ⟨1, 0⟩ true).2)
        ↔ (true = true ∧ isPlayerOnGround (some wPlayerObj.body) (some wWorld) = true))
      ∧ JUMP_FORCE = 5 :=
  ⟨⟨rfl, rfl⟩,
   updatePhysics_jump_iff (fun _ _ => 0) wState 1 ⟨1, 0⟩ true wWorld wPlayerObj
     rfl rfl⟩

/-- C4: after every call to the first revision's `updatePhysics` with an
initialized world, every `player`-typed entry of `physicsObjects` has its
mesh position equal to its rigid body's translation as read back after the
step. -/
theorem updatePhysics_mesh_matches_body
    (atan2F : ℚ → ℚ → ℚ) (st : Physics.PhysState) (dt : ℚ) (dir : Vec2 ℚ)
    (j : Bool) (w : World)
    (h1 : st.world = some w) :
    ∀ obj ∈ (Physics.updatePhysics atan2F st dt dir j).1.physicsObjects,
      obj.type = ObjType.player → obj.meshPos = obj.body.translation := by
  intro obj hmem hty
  simp only [Physics.updatePhysics, h1, List.mem_map] at hmem
  obtain ⟨o, ho, rfl⟩ := hmem
  by_cases hp : o.type = ObjType.player
  · simp [Physics.syncPlayerObj, hp]
  · simp [Physics.syncPlayerObj, hp] at hty

/-- C4 witness: concrete state with a live world and player on which the
hypothesis holds and the conclusion is non-vacuous. -/
theorem updatePhysics_mesh_matches_body_witness :
    wState.world = some wWorld
    ∧ (∀ obj ∈ (Physics.updatePhysics (fun _ _ => 0) wState 1 ⟨1, 0⟩ false).1.physicsObjects,
        obj.type = ObjType.player → obj.meshPos = obj.body.translation) :=
  ⟨rfl,
   updatePhysics_mesh_matches_body (fun _ _ => 0) wState 1 ⟨1, 0⟩ false wWorld rfl⟩

/-- Every event emitted by the camera-rotation revision's sync loop is a
mesh-position write. -/
theorem physics2_syncEvents_eq_syncMesh (objs : List Physics2.PhysObj) :
    ∀ e ∈ Physics2.syncEvents objs, e = PEvent.syncMesh := by
  intro e he
  simp only [Physics2.syncEvents, List.mem_flatten, List.mem_map] at he
  obtain ⟨l, ⟨o, ho, rfl⟩, hel⟩ := he
  split at hel
  · simpa using hel
  · simp at hel

/-- The ordered trace of the player phase of the camera-rotation revision's
`updatePhysics` when a player physics object exists: the input rotation
first, then one velocity write with the rotated direction, then the jump
impulse exactly when the jump condition holds, then the player mesh yaw
write. -/
theorem physics2_playerPhase_trace (cosF sinF : ℚ → ℚ) (w : World)
    (objs : List Physics2.PhysObj) (dir : Vec2 ℚ) (j : Bool)
    (cam : CameraRot ℚ) (dt : ℚ) (pp : Physics2.PhysObj)
    (h : Physics2.getPlayerPhysics objs = some pp) :
    (Physics2.playerPhase cosF sinF w objs dir j cam dt).2 =
      PEvent.rotateDir (rotateDirectionWithCamera cosF sinF dir cam) ::
      PEvent.setLinvel
        ⟨(rotateDirectionWithCamera cosF sinF dir cam).x * MOVE_SPEED,
         pp.body.linvel.y,
         (rotateDirectionWithCamera cosF sinF dir cam).z * MOVE_SPEED⟩ ::
        ((if j && isPlayerOnGround (some pp.body) (some w) then
            [PEvent.applyImpulseEv ⟨0, JUMP_FORCE, 0⟩]
          else []) ++ [PEvent.playerRot cam.y]) := by
  simp only [Physics2.playerPhase, h, movePlayer, playerJump, Option.getD_some,
    isPlayerOnGround_setLinvel]
  split <;> rfl

/-- C6: in every call to the camera-rotation revision's `updatePhysics`
with an initialized world and a player present, the raw input direction is
rotated by the camera yaw first, a velocity write using exactly the rotated
direction scaled by `MOVE_SPEED` occurs after the rotation, and every
velocity write within the call uses that rotated direction. -/
theorem updatePhysics2_rotate_before_move
    (cosF sinF : ℚ → ℚ) (st : Physics2.PhysState) (dt : ℚ) (dir : Vec2 ℚ)
    (j : Bool) (cam : CameraRot ℚ) (w : World) (pp : Physics2.PhysObj)
    (h1 : st.world = some w)
    (h2 : Physics2.getPlayerPhysics st.physicsObjects = some pp) :
    ∃ post vy,
      (Physics2.updatePhysics cosF sinF st dt dir j cam).2
          = PEvent.rotateDir (rotateDirectionWithCamera cosF sinF dir cam) :: post
        ∧ PEvent.setLinvel
            ⟨(rotateDirectionWithCamera cosF sinF dir cam).x * MOVE_SPEED, vy,
             (rotateDirectionWithCamera cosF sinF dir cam).z * MOVE_SPEED⟩ ∈ post
        ∧ (∀ v, PEvent.setLinvel v ∈ (Physics2.updatePhysics cosF sinF st dt dir j cam).2 →
            v = ⟨(rotateDirectionWithCamera cosF sinF dir cam).x * MOVE_SPEED, vy,
                 (rotateDirectionWithCamera cosF sinF dir cam).z * MOVE_SPEED⟩) := by
  have htr :
      (Physics2.updatePhysics cosF sinF st dt dir j cam).2 =
        (Physics2.playerPhase cosF sinF w st.physicsObjects dir j cam dt).2
          ++ PEvent.stepEv :: Physics2.syncEvents
              (Physics2.stepObjs w
                (Physics2.playerPhase cosF sinF w st.physicsObjects dir j cam dt).1) := by
    simp only [Physics2.updatePhysics, h1]
  rw [htr, physics2_playerPhase_trace cosF sinF w st.physicsObjects dir j cam dt pp h2]
  simp only [List.cons_append, List.append_assoc, List.singleton_append]
  refine ⟨_, pp.body.linvel.y, rfl, List.mem_cons_self _ _, ?_⟩
  intro v hv
  simp only [List.mem_cons, List.mem_append] at hv
  rcases hv with hv | hv | hv | hv | hv | hv | hv
  · simp at hv
  · simpa using hv
  · split at hv <;> simp at hv
  · simp at hv
  · simp at hv
  · simp at hv
  · have := physics2_syncEvents_eq_syncMesh _ _ hv
    simp at this

/-- C6 witness: a concrete state with a live world and player on which the
theorem's hypotheses hold. -/
theorem updatePhysics2_rotate_before_move_witness :
    (wState2.world = some wWorld
      ∧ Physics2.getPlayerPhysics wState2.physicsObjects = some wPlayerObj2)
    ∧ (∃ post vy,
        (Physics2.updatePhysics (fun _ => 1) (fun _ => 0) wState2 1 ⟨1, 0⟩ false ⟨0, 0⟩).2
            = PEvent.rotateDir
                (rotateDirectionWithCamera (fun _ => 1) (fun _ => 0) ⟨1, 0⟩ ⟨0, 0⟩) :: post
          ∧ PEvent.setLinvel
              ⟨(rotateDirectionWithCamera (fun _ => 1) (fun _ => 0) ⟨1, 0⟩ ⟨0, 0⟩).x * MOVE_SPEED, vy,
               (rotateDirectionWithCamera (fun _ => 1) (fun _ => 0) ⟨1, 0⟩ ⟨0, 0⟩).z * MOVE_SPEED⟩ ∈ post
          ∧ (∀ v, PEvent.setLinvel v
                ∈ (Physics2.updatePhysics (fun _ => 1) (fun _ => 0) wState2 1 ⟨1, 0⟩ false ⟨0, 0⟩).2 →
              v = ⟨(rotateDirectionWithCamera (fun _ => 1) (fun _ => 0) ⟨1, 0⟩ ⟨0, 0⟩).x * MOVE_SPEED, vy,
                   (rotateDirectionWithCamera (fun _ => 1) (fun _ => 0) ⟨1, 0⟩ ⟨0, 0⟩).z * MOVE_SPEED⟩)) :=
  ⟨⟨rfl, rfl⟩,
   updatePhysics2_rotate_before_move (fun _ => 1) (fun _ => 0) wState2 1 ⟨1, 0⟩
     false ⟨0, 0⟩ wWorld wPlayerObj2 rfl rfl⟩

/-- `updateDebugMesh` preserves the presence of the debug mesh. -/
theorem updateDebugMesh_isSome (m : Option Physics3.DebugMesh) (b : Body) :
    (Physics3.updateDebugMesh m b).isSome = m.isSome := by
  cases m <;> rfl

/-- The debug revision's sync loop does not change an object's type tag. -/
theorem physics3_syncObj_type (o : Physics3.PhysObj) :
    (Physics3.syncObj o).type = o.type := by
  unfold Physics3.syncObj
  split
  · rfl
  split
  · rfl
  · rfl

/-- The debug revision's sync loop does not change whether an object has a
debug mesh. -/
theorem physics3_syncObj_debugMesh_isSome (o : Physics3.PhysObj) :
    (Physics3.syncObj o).debugMesh.isSome = o.debugMesh.isSome := by
  unfold Physics3.syncObj
  split
  · simp [updateDebugMesh_isSome]
  split
  · simp [updateDebugMesh_isSome]
  · rfl

/-- Every object of the debug revision's sync loop that carries a debug mesh
contributes a debug-mesh synchronization event. -/
theorem physics3_mem_syncEvents (objs : List Physics3.PhysObj)
    (o : Physics3.PhysObj) (ho : o ∈ objs) (hd : o.debugMesh.isSome = true) :
    PEvent.updateDebugEv o.type ∈ Physics3.syncEvents objs := by
  simp only [Physics3.syncEvents, List.mem_flatten]
  refine ⟨_, List.mem_map_of_mem _ ho, ?_⟩
  cases hty : o.type with
  | player => simp [hty, hd]
  | ground => simp [hty, hd]

/-- Every event emitted by the debug revision's sync loop is a mesh-position
write or a debug-mesh synchronization. -/
theorem physics3_syncEvents_elems (objs : List Physics3.PhysObj) :
    ∀ e ∈ Physics3.syncEvents objs,
      e = PEvent.syncMesh ∨ ∃ t, e = PEvent.updateDebugEv t := by
  intro e he
  simp only [Physics3.syncEvents, List.mem_flatten, List.mem_map] at he
  obtain ⟨l, ⟨o, ho, rfl⟩, hel⟩ := he
  split at hel
  · simp only [List.mem_cons] at hel
    rcases hel with hel | hel
    · exact Or.inl hel
    · split at hel
      · exact Or.inr ⟨o.type, by simpa using hel⟩
      · simp at hel
  · split at hel
    · exact Or.inr ⟨o.type, by simpa using hel⟩
    · simp at hel

/-- The ordered trace of the player phase of the debug revision's
`updatePhysics` when a player physics object exists. -/
theorem physics3_playerPhase_trace (cosF sinF : ℚ → ℚ) (w : World)
    (objs : List Physics3.PhysObj) (dir : Vec2 ℚ) (j : Bool)
    (cam : CameraRot ℚ) (dt : ℚ) (pp : Physics3.PhysObj)
    (h : Physics3.getPlayerPhysics objs = some pp) :
    (Physics3.playerPhase cosF sinF w objs dir j cam dt).2 =
      PEvent.rotateDir (rotateDirectionWithCamera cosF sinF dir cam) ::
      PEvent.setLinvel
        ⟨(rotateDirectionWithCamera cosF sinF dir cam).x * MOVE_SPEED,
         pp.body.linvel.y,
         (rotateDirectionWithCamera cosF sinF dir cam).z * MOVE_SPEED⟩ ::
        ((if j && isPlayerOnGround (some pp.body) (some w) then
            [PEvent.applyImpulseEv ⟨0, JUMP_FORCE, 0⟩]
          else []) ++ [PEvent.playerRot cam.y]) := by
  simp only [Physics3.playerPhase, h, movePlayer, playerJump, Option.getD_some,
    isPlayerOnGround_setLinvel]
  split <;> rfl

/-- C7: in every call to the debug revision's `updatePhysics` with an
initialized world, no debug-mesh synchronization happens before the (unique)
`world.step()` event, and after the step every object that carries a debug
mesh has a debug-mesh synchronization event. -/
theorem updatePhysics3_debug_sync_after_step
    (cosF sinF : ℚ → ℚ) (st : Physics3.PhysState) (dt : ℚ) (dir : Vec2 ℚ)
    (j : Bool) (cam : CameraRot ℚ) (w : World)
    (h1 : st.world = some w) :
    ∃ pre post,
      (Physics3.updatePhysics cosF sinF st dt dir j cam).2
          = pre ++ PEvent.stepEv :: post
        ∧ (∀ t, PEvent.updateDebugEv t ∉ pre)
        ∧ PEvent.stepEv ∉ pre ∧ PEvent.stepEv ∉ post
        ∧ (∀ obj ∈ (Physics3.updatePhysics cosF sinF st dt dir j cam).1.physicsObjects,
            obj.debugMesh.isSome = true → PEvent.updateDebugEv obj.type ∈ post) := by
  refine ⟨(Physics3.playerPhase cosF sinF w st.physicsObjects dir j cam dt).2,
    Physics3.syncEvents
      (Physics3.stepObjs w
        (Physics3.playerPhase cosF sinF w st.physicsObjects dir j cam dt).1),
    ?_, ?_, ?_, ?_, ?_⟩
  · simp only [Physics3.updatePhysics, h1]
  · intro t hp
    rcases hgp : Physics3.getPlayerPhysics st.physicsObjects with _ | pp
    · simp [Physics3.playerPhase, hgp] at hp
    · rw [physics3_playerPhase_trace cosF sinF w st.physicsObjects dir j cam dt pp hgp] at hp
      simp only [List.mem_cons, List.mem_append] at hp
      rcases hp with hp | hp | hp | hp
      · simp at hp
      · simp at hp
      · split at hp <;> simp at hp
      · simp at hp
  · intro hp
    rcases hgp : Physics3.getPlayerPhysics st.physicsObjects with _ | pp
    · simp [Physics3.playerPhase, hgp] at hp
    · rw [physics3_playerPhase_trace cosF sinF w st.physicsObjects dir j cam dt pp hgp] at hp
      simp only [List.mem_cons, List.mem_append] at hp
      rcases hp with hp | hp | hp | hp
      · simp at hp
      · simp at hp
      · split at hp <;> simp at hp
      · simp at hp
  · intro hp
    rcases physics3_syncEvents_elems _ _ hp with h | ⟨t, h⟩ <;> simp at h
  · intro obj hmem hd
    simp only [Physics3.updatePhysics, h1, List.mem_map] at hmem
    obtain ⟨o, ho, rfl⟩ := hmem
    rw [physics3_syncObj_type]
    rw [physics3_syncObj_debugMesh_isSome] at hd
    exact physics3_mem_syncEvents _ o ho hd

/-- C7 witness: a concrete state with a live world, a player and a ground
object both carrying debug meshes. -/
theorem updatePhysics3_debug_sync_after_step_witness :
    wState3.world = some wWorld
    ∧ (∃ pre post,
        (Physics3.updatePhysics (fun _ => 1) (fun _ => 0) wState3 1 ⟨1, 0⟩ false ⟨0, 0⟩).2
            = pre ++ PEvent.stepEv :: post
          ∧ (∀ t, PEvent.updateDebugEv t ∉ pre)
          ∧ PEvent.stepEv ∉ pre ∧ PEvent.stepEv ∉ post
          ∧ (∀ obj ∈ (Physics3.updatePhysics (fun _ => 1) (fun _ => 0) wState3 1 ⟨1, 0⟩ false ⟨0, 0⟩).1.physicsObjects,
              obj.debugMesh.isSome = true → PEvent.updateDebugEv obj.type ∈ post)) :=
  ⟨rfl,
   updatePhysics3_debug_sync_after_step (fun _ => 1) (fun _ => 0) wState3 1 ⟨1, 0⟩
     false ⟨0, 0⟩ wWorld rfl⟩

/-- Normalizing a direction with two nonzero components yields a unit
vector. -/
theorem normalizeDirection_norm_one (d : Vec2 ℝ) (hx : d.x ≠ 0) (hz : d.z ≠ 0) :
    Real.sqrt ((Input.normalizeDirection Real.sqrt d).x ^ 2
      + (Input.normalizeDirection Real.sqrt d).z ^ 2) = 1 := by
  have hsum : (0:ℝ) < d.x * d.x + d.z * d.z := by
    have h1 : 0 < d.x * d.x := mul_self_pos.mpr hx
    have h2 : 0 < d.z * d.z := mul_self_pos.mpr hz
    linarith
  have hL : Real.sqrt (d.x * d.x + d.z * d.z) ^ 2 = d.x * d.x + d.z * d.z :=
    Real.sq_sqrt hsum.le
  have hres : Input.normalizeDirection Real.sqrt d =
      ⟨d.x / Real.sqrt (d.x * d.x + d.z * d.z),
       d.z / Real.sqrt (d.x * d.x + d.z * d.z)⟩ := by
    rw [Input.normalizeDirection, if_pos ⟨hx, hz⟩]
  rw [hres]
  have hkey : (d.x / Real.sqrt (d.x * d.x + d.z * d.z)) ^ 2
      + (d.z / Real.sqrt (d.x * d.x + d.z * d.z)) ^ 2 = 1 := by
    rw [div_pow, div_pow, hL, div_add_div_same]
    rw [div_eq_one_iff_eq (by positivity)]
    ring
  show Real.sqrt ((d.x / Real.sqrt (d.x * d.x + d.z * d.z)) ^ 2
      + (d.z / Real.sqrt (d.x * d.x + d.z * d.z)) ^ 2) = 1
  rw [hkey, Real.sqrt_one]

/-- C8: the movement direction has components
`(right ? 1 : 0) - (left ? 1 : 0)` and `(backward ? 1 : 0) - (forward ? 1 : 0)`,
each in `{-1, 0, 1}`, and after the tick loop's normalization the direction
has Euclidean norm exactly 0 or exactly 1. -/
theorem getMovementDirection_components_and_norm (keys : Input.Keys) :
    ((Input.getMovementDirection (α := ℝ) keys).x
        = (if keys.right then 1 else 0) - (if keys.left then 1 else 0))
    ∧ ((Input.getMovementDirection (α := ℝ) keys).z
        = (if keys.backward then 1 else 0) - (if keys.forward then 1 else 0))
    ∧ ((Input.getMovementDirection (α := ℝ) keys).x = -1
        ∨ (Input.getMovementDirection (α := ℝ) keys).x = 0
        ∨ (Input.getMovementDirection (α := ℝ) keys).x = 1)
    ∧ ((Input.getMovementDirection (α := ℝ) keys).z = -1
        ∨ (Input.getMovementDirection (α := ℝ) keys).z = 0
        ∨ (Input.getMovementDirection (α := ℝ) keys).z = 1)
    ∧ (Real.sqrt ((Input.normalizeDirection Real.sqrt
            (Input.getMovementDirection (α := ℝ) keys)).x ^ 2
          + (Input.normalizeDirection Real.sqrt
            (Input.getMovementDirection (α := ℝ) keys)).z ^ 2) = 0
        ∨ Real.sqrt ((Input.normalizeDirection Real.sqrt
            (Input.getMovementDirection (α := ℝ) keys)).x ^ 2
          + (Input.normalizeDirection Real.sqrt
            (Input.getMovementDirection (α := ℝ) keys)).z ^ 2) = 1) := by
  have hx3 : (Input.getMovementDirection (α := ℝ) keys).x = -1
      ∨ (Input.getMovementDirection (α := ℝ) keys).x = 0
      ∨ (Input.getMovementDirection (α := ℝ) keys).x = 1 := by
    simp only [Input.getMovementDirection]
    cases keys.right <;> cases keys.left <;> norm_num
  have hz3 : (Input.getMovementDirection (α := ℝ) keys).z = -1
      ∨ (Input.getMovementDirection (α := ℝ) keys).z = 0
      ∨ (Input.getMovementDirection (α := ℝ) keys).z = 1 := by
    simp only [Input.getMovementDirection]
    cases keys.backward <;> cases keys.forward <;> norm_num
  refine ⟨rfl, rfl, hx3, hz3, ?_⟩
  by_cases hx : (Input.getMovementDirection (α := ℝ) keys).x = 0
  · have heq : Input.normalizeDirection Real.sqrt
        (Input.getMovementDirection (α := ℝ) keys)
          = Input.getMovementDirection (α := ℝ) keys := by
      rw [Input.normalizeDirection, if_neg (by simp [hx])]
    by_cases hz : (Input.getMovementDirection (α := ℝ) keys).z = 0
    · left
      rw [heq, hx, hz]
      norm_num
    · right
      rw [heq, hx]
      rcases hz3 with h | h | h
      · rw [h]; norm_num
      · exact absurd h hz
      · rw [h]; norm_num
  · by_cases hz : (Input.getMovementDirection (α := ℝ) keys).z = 0
    · right
      have heq : Input.normalizeDirection Real.sqrt
          (Input.getMovementDirection (α := ℝ) keys)
            = Input.getMovementDirection (α := ℝ) keys := by
        rw [Input.normalizeDirection, if_neg (by simp [hz])]
      rw [heq, hz]
      rcases hx3 with h | h | h
      · rw [h]; norm_num
      · exact absurd h hx
      · rw [h]; norm_num
    · exact Or.inr (normalizeDirection_norm_one _ hx hz)

/-- The clamp performed by `onMouseMove` keeps the accumulated vertical look
within the limits, from any starting point within them. -/
theorem processMouseMoves_y_bounds (sens : ℝ) (evs : List (Input.MouseMoveEvent ℝ))
    (st : Input.MouseState ℝ)
    (h : -(Real.pi / 2) + 1 / 10 ≤ st.y ∧ st.y ≤ Real.pi / 2 - 1 / 10) :
    -(Real.pi / 2) + 1 / 10 ≤ (Input.processMouseMoves Real.pi sens st evs).y
      ∧ (Input.processMouseMoves Real.pi sens st evs).y ≤ Real.pi / 2 - 1 / 10 := by
  induction evs generalizing st with
  | nil => exact h
  | cons ev evs ih =>
      have hstep : -(Real.pi / 2) + 1 / 10 ≤ (Input.onMouseMove Real.pi sens st ev).y
          ∧ (Input.onMouseMove Real.pi sens st ev).y ≤ Real.pi / 2 - 1 / 10 := by
        have hpi := Real.pi_gt_three
        unfold Input.onMouseMove
        split
        · constructor
          · exact le_max_right _ _
          · exact max_le (min_le_right _ _) (by linarith)
        · exact h
      exact ih (Input.onMouseMove Real.pi sens st ev) hstep

/-- C9: after any sequence of mouse-move events starting from the
constructor's zero state, the accumulated vertical look stays within
`[-π/2 + 0.1, π/2 - 0.1]`, so the pitch returned by `getPlayerRotation` is
strictly between `-π/2` and `π/2`. -/
theorem mouse_vertical_look_clamped (sens : ℝ) (evs : List (Input.MouseMoveEvent ℝ)) :
    (-(Real.pi / 2) + 1 / 10 ≤ (Input.processMouseMoves Real.pi sens ⟨0, 0⟩ evs).y
      ∧ (Input.processMouseMoves Real.pi sens ⟨0, 0⟩ evs).y ≤ Real.pi / 2 - 1 / 10)
    ∧ (-(Real.pi / 2)
          < (Input.getPlayerRotation (Input.processMouseMoves Real.pi sens ⟨0, 0⟩ evs)).x
      ∧ (Input.getPlayerRotation (Input.processMouseMoves Real.pi sens ⟨0, 0⟩ evs)).x
          < Real.pi / 2) := by
  have hpi := Real.pi_gt_three
  have h0 : -(Real.pi / 2) + 1 / 10 ≤ ((⟨0, 0⟩ : Input.MouseState ℝ)).y
      ∧ ((⟨0, 0⟩ : Input.MouseState ℝ)).y ≤ Real.pi / 2 - 1 / 10 := by
    constructor
    · show -(Real.pi / 2) + 1 / 10 ≤ (0:ℝ)
      linarith
    · show (0:ℝ) ≤ Real.pi / 2 - 1 / 10
      linarith
  have hb := processMouseMoves_y_bounds sens evs ⟨0, 0⟩ h0
  have hx : (Input.getPlayerRotation (Input.processMouseMoves Real.pi sens ⟨0, 0⟩ evs)).x
      = -(Input.processMouseMoves Real.pi sens ⟨0, 0⟩ evs).y := rfl
  refine ⟨hb, ?_, ?_⟩
  · rw [hx]
    have := hb.2
    linarith
  · rw [hx]
    have := hb.1
    linarith

/-- C10: `rotateDirectionWithCamera` instantiated with the real cosine and
sine preserves the Euclidean norm of the direction, and returns the zero
direction unchanged for every camera angle. -/
theorem rotateDirectionWithCamera_norm_preserved :
    (∀ (d : Vec2 ℝ) (c : CameraRot ℝ),
        Real.sqrt ((rotateDirectionWithCamera Real.cos Real.sin d c).x ^ 2
            + (rotateDirectionWithCamera Real.cos Real.sin d c).z ^ 2)
          = Real.sqrt (d.x ^ 2 + d.z ^ 2))
    ∧ (∀ c : CameraRot ℝ,
        rotateDirectionWithCamera Real.cos Real.sin ⟨0, 0⟩ c = ⟨0, 0⟩) := by
  constructor
  · intro d c
    by_cases h : d.x = 0 ∧ d.z = 0
    · rw [rotateDirectionWithCamera, if_pos h]
    · rw [rotateDirectionWithCamera, if_neg h]
      show Real.sqrt ((d.x * Real.cos c.y - d.z * Real.sin c.y) ^ 2
          + (d.x * Real.sin c.y + d.z * Real.cos c.y) ^ 2)
            = Real.sqrt (d.x ^ 2 + d.z ^ 2)
      congr 1
      have hs := Real.sin_sq_add_cos_sq c.y
      linear_combination (d.x ^ 2 + d.z ^ 2) * hs
  · intro c
    rw [rotateDirectionWithCamera, if_pos ⟨rfl, rfl⟩]
